import Mathlib

/-!
Shallow embedding of the serialization core (`src/ser.rs`).

The source is the streaming serialization protocol: a `Serialize` trait
(values describe their own shape), a `Serializer` trait (sinks consume
shape events, with default-forwarding convenience methods), and the lazy
iteration adapters `SeqIteratorVisitor`, `MapIteratorVisitor` and the
macro-generated per-arity `TupleVisitor1..12`.

Modelling conventions:
- Rust `Result<T, E>` is `Except ε τ`; `Result<Option<()>, E>` (the
  adapters' step result) is `Except ε (Option Unit)`: `some ()` means
  "continuing", `none` means "exhausted".
- `&mut self` methods are modelled by returning the updated value
  alongside the result; on the error path the updated state is dropped
  (the source never observes state after an error: traversal aborts).
- A Rust iterator is modelled as the list of elements it has yet to
  yield; `Iterator::next` is head/tail.
- Machine integers carry their mathematical value (`Int` for signed,
  `Nat` for unsigned); widening casts are modelled explicitly as
  two's-complement reinterpretations.
- Float values are opaque bit patterns (`Nat`); the protocol never
  inspects them, and the std widening cast `f32 as f64` is abstracted
  as an explicit function argument where it occurs.
- The `Serializer` trait is a structure whose fields are the trait
  methods (each overridable by a sink); the default bodies of the
  defaulted methods are separate `..._default` definitions translated
  from the source.
- Polymorphic `V: Serialize` arguments handed to a sink are
  defunctionalized to the deep `Value` universe of the built-in
  bindings; the sink drives the nested value itself, as a real sink
  drives `value.serialize(self)`.
-/

set_option maxRecDepth 4000

namespace Serde

/-- The closed set of shape events a sink can observe, one per
`Serializer` method (the spec's event alphabet). `seqBegin`/`mapBegin`
carry the optional length hint reported by the visitor handed to
`visit_seq`/`visit_map`; `seqEnd`/`mapEnd` mark the end of the driving
loop of a composite. -/
inductive Event where
  | bool (b : Bool)
  | isize (v : Int)
  | i8 (v : Int)
  | i16 (v : Int)
  | i32 (v : Int)
  | i64 (v : Int)
  | usize (v : Nat)
  | u8 (v : Nat)
  | u16 (v : Nat)
  | u32 (v : Nat)
  | u64 (v : Nat)
  | f32 (bits : Nat)
  | f64 (bits : Nat)
  | char (c : Char)
  | str (s : String)
  | unit
  | namedUnit (name : String)
  | enumUnit (name variant : String)
  | noneE
  | someE
  | seqBegin (len : Option Nat)
  | seqElt (first : Bool)
  | seqEnd
  | mapBegin (len : Option Nat)
  | mapElt (first : Bool)
  | mapEnd
deriving DecidableEq, Repr

/-- The universe of values covered by the built-in `Serialize` impls in
`src/ser.rs`. `slice` stands for `&[T]`; `vec`, `btreeSet`, `hashSet`
are the other dynamic-sequence bindings (`Vec` delegates to the slice
impl, the set impls have the identical body); `map` is `BTreeMap` (pairs
listed in its iteration order), `hashMap` is `HashMap` (pairs in its
single-pass iteration order); `tuple` is the family of fixed-arity
tuples (arity = list length); `ref`/`mutRef`/`box`/`rc`/`arc` are the
ownership-wrapper impls. -/
inductive Value where
  | bool (b : Bool)
  | isize (v : Int)
  | i8 (v : Int)
  | i16 (v : Int)
  | i32 (v : Int)
  | i64 (v : Int)
  | usize (v : Nat)
  | u8 (v : Nat)
  | u16 (v : Nat)
  | u32 (v : Nat)
  | u64 (v : Nat)
  | char (c : Char)
  | str (s : String)
  | unit
  | noneV
  | someV (v : Value)
  | slice (l : List Value)
  | vec (l : List Value)
  | btreeSet (l : List Value)
  | hashSet (l : List Value)
  | tuple (l : List Value)
  | map (ps : List (Value × Value))
  | hashMap (ps : List (Value × Value))
  | ref (v : Value)
  | mutRef (v : Value)
  | box (v : Value)
  | rc (v : Value)
  | arc (v : Value)

/-- Struct `SeqIteratorVisitor` (src/ser.rs:250-254): an iterator over the
remaining elements, the optional length hint, and the `first` flag. -/
structure SeqIteratorVisitor (V : Type) where
  iter : List V
  len : Option Nat
  first : Bool
deriving DecidableEq, Repr

/-- Constructor `SeqIteratorVisitor::new` (src/ser.rs:260-266). -/
def SeqIteratorVisitor.new (iter : List V) (len : Option Nat) : SeqIteratorVisitor V :=
  { iter := iter, len := len, first := true }

/-- Method `SeqIteratorVisitor::visit` (src/ser.rs:274-287). The serializer is
abstracted by the one method the body calls, `visit_seq_elt`
(`elt s first value`). Saves and clears the `first` flag, then pulls the
next element; on `Some(value)` it forwards to `visit_seq_elt` (with
`try!` error propagation) and reports continuing, on `None` it reports
exhausted. -/
def SeqIteratorVisitor.visit (self : SeqIteratorVisitor V)
    (elt : σ → Bool → V → Except ε σ) (s : σ) :
    Except ε (Option Unit × SeqIteratorVisitor V × σ) :=
  let first := self.first
  let self := { self with first := false }
  match self.iter with
  | value :: rest =>
    match elt s first value with
    | .ok s2 => .ok (some (), { self with iter := rest }, s2)
    | .error e => .error e
  | [] => .ok (none, self, s)

/-- Method `SeqIteratorVisitor::len` (src/ser.rs:290-292). -/
def SeqIteratorVisitor.length (self : SeqIteratorVisitor V) : Option Nat :=
  self.len

/-- Struct `MapIteratorVisitor` (src/ser.rs:527-531): an iterator over the
remaining key-value pairs, the optional length hint, and `first`. -/
structure MapIteratorVisitor (K W : Type) where
  iter : List (K × W)
  len : Option Nat
  first : Bool
deriving DecidableEq, Repr

/-- Constructor `MapIteratorVisitor::new` (src/ser.rs:537-543). -/
def MapIteratorVisitor.new (iter : List (K × W)) (len : Option Nat) :
    MapIteratorVisitor K W :=
  { iter := iter, len := len, first := true }

/-- Method `MapIteratorVisitor::visit` (src/ser.rs:552-565), abstracting the
serializer by `visit_map_elt` (`elt s first key value`). -/
def MapIteratorVisitor.visit (self : MapIteratorVisitor K W)
    (elt : σ → Bool → K → W → Except ε σ) (s : σ) :
    Except ε (Option Unit × MapIteratorVisitor K W × σ) :=
  let first := self.first
  let self := { self with first := false }
  match self.iter with
  | (key, value) :: rest =>
    match elt s first key value with
    | .ok s2 => .ok (some (), { self with iter := rest }, s2)
    | .error e => .error e
  | [] => .ok (none, self, s)

/-- Method `MapIteratorVisitor::len` (src/ser.rs:568-570). -/
def MapIteratorVisitor.length (self : MapIteratorVisitor K W) : Option Nat :=
  self.len

/-- The macro-generated `TupleVisitorN` (src/ser.rs:358-418,
`tuple_impls!`): a borrowed tuple (elements as a list, arity =
`elts.length`), the `u8` position counter `state`, and `first`. The
counter never exceeds the arity (and the arity is at most 12), so `Nat`
cannot diverge from `u8` wrap-around. -/
structure TupleVisitor (V : Type) where
  elts : List V
  state : Nat
  first : Bool
deriving DecidableEq, Repr

/-- Constructor `TupleVisitorN::new` (src/ser.rs:372-378). -/
def TupleVisitor.new (elts : List V) : TupleVisitor V :=
  { elts := elts, state := 0, first := true }

/-- Method `TupleVisitorN::visit` (src/ser.rs:384-401). The `match self.state`
with one arm per position `0..N-1` and a catch-all `_ => Ok(None)` is
the indexed lookup `elts[state]?`: a hit increments the counter and
forwards the element at the old counter to `visit_seq_elt` (`try!`
propagating errors), a miss reports exhausted. -/
def TupleVisitor.visit (self : TupleVisitor V)
    (elt : σ → Bool → V → Except ε σ) (s : σ) :
    Except ε (Option Unit × TupleVisitor V × σ) :=
  let first := self.first
  let self := { self with first := false }
  match self.elts[self.state]? with
  | some value =>
    let self := { self with state := self.state + 1 }
    match elt s first value with
    | .ok s2 => .ok (some (), self, s2)
    | .error e => .error e
  | none => .ok (none, self, s)

/-- Method `TupleVisitorN::len` (src/ser.rs:403-405): `Some($len)` where
`$len` is the arity. -/
def TupleVisitor.length (self : TupleVisitor V) : Option Nat :=
  some self.elts.length

/-- The two kinds of `SeqVisitor` the built-in bindings hand to
`visit_seq`: the dynamic-sequence adapter and a fixed-arity tuple
adapter. -/
inductive SeqVis where
  | iter (v : SeqIteratorVisitor Value)
  | tup (t : TupleVisitor Value)

/-- Dispatch of `SeqVisitor::visit` over the two adapter kinds. -/
def SeqVis.visit (vis : SeqVis) (elt : σ → Bool → Value → Except ε σ) (s : σ) :
    Except ε (Option Unit × SeqVis × σ) :=
  match vis with
  | .iter v =>
    match SeqIteratorVisitor.visit v elt s with
    | .ok (r, v2, s2) => .ok (r, .iter v2, s2)
    | .error e => .error e
  | .tup t =>
    match TupleVisitor.visit t elt s with
    | .ok (r, t2, s2) => .ok (r, .tup t2, s2)
    | .error e => .error e

/-- Dispatch of `SeqVisitor::len` over the two adapter kinds. -/
def SeqVis.length (vis : SeqVis) : Option Nat :=
  match vis with
  | .iter v => v.length
  | .tup t => t.length

/-- Number of steps before the visitor reports exhaustion (used by the
driving sink to pick a sufficient fuel; not source code). -/
def SeqVis.remaining (vis : SeqVis) : Nat :=
  match vis with
  | .iter v => v.iter.length
  | .tup t => t.elts.length - t.state

/-- The `Serializer` trait (src/ser.rs:18-160) as a record of its
methods over sink state `σ` and the sink-chosen error type `ε`
(`type Error`). Every trait method is a field, so a sink may override
any of them; the default bodies of the defaulted methods are the
separate `Serializer.visit_*_default` definitions below. Nested
`V: Serialize` arguments (`visit_some`, element visits) and the
visitors handed to the composite visits are defunctionalized to the
deep `Value` universe. -/
structure Serializer (σ ε : Type) where
  visit_bool : σ → Bool → Except ε σ
  visit_isize : σ → Int → Except ε σ
  visit_i8 : σ → Int → Except ε σ
  visit_i16 : σ → Int → Except ε σ
  visit_i32 : σ → Int → Except ε σ
  visit_i64 : σ → Int → Except ε σ
  visit_usize : σ → Nat → Except ε σ
  visit_u8 : σ → Nat → Except ε σ
  visit_u16 : σ → Nat → Except ε σ
  visit_u32 : σ → Nat → Except ε σ
  visit_u64 : σ → Nat → Except ε σ
  visit_f32 : σ → Nat → Except ε σ
  visit_f64 : σ → Nat → Except ε σ
  visit_char : σ → Char → Except ε σ
  visit_str : σ → String → Except ε σ
  visit_unit : σ → Except ε σ
  visit_named_unit : σ → String → Except ε σ
  visit_enum_unit : σ → String → String → Except ε σ
  visit_none : σ → Except ε σ
  visit_some : σ → Value → Except ε σ
  visit_seq : σ → SeqVis → Except ε σ
  visit_named_seq : σ → String → SeqVis → Except ε σ
  visit_enum_seq : σ → String → String → SeqVis → Except ε σ
  visit_seq_elt : σ → Bool → Value → Except ε σ
  visit_map : σ → MapIteratorVisitor Value Value → Except ε σ
  visit_named_map : σ → String → MapIteratorVisitor Value Value → Except ε σ
  visit_enum_map : σ → String → String → MapIteratorVisitor Value Value → Except ε σ
  visit_map_elt : σ → Bool → Value → Value → Except ε σ

/-- The two's-complement reinterpretation of an `Int` in an `n`-bit
signed word: the value the machine cast `as iN` denotes. On values
already in the `n`-bit signed range it is the identity (widening casts
are value-preserving). -/
def signedWrap (n : Nat) (v : Int) : Int :=
  (v + 2 ^ (n - 1)) % 2 ^ n - 2 ^ (n - 1)

/-- The reinterpretation of a `Nat` in an `n`-bit unsigned word: the
value the machine cast `as uN` denotes; identity on the range. -/
def unsignedWrap (n : Nat) (v : Nat) : Nat :=
  v % 2 ^ n

/-- Default body of `visit_isize` (src/ser.rs:24-26):
`self.visit_i64(v as i64)`. -/
def Serializer.visit_isize_default (S : Serializer σ ε) (s : σ) (v : Int) : Except ε σ :=
  S.visit_i64 s (signedWrap 64 v)

/-- Default body of `visit_i8` (src/ser.rs:29-31):
`self.visit_i64(v as i64)`. -/
def Serializer.visit_i8_default (S : Serializer σ ε) (s : σ) (v : Int) : Except ε σ :=
  S.visit_i64 s (signedWrap 8 v)

/-- Default body of `visit_i16` (src/ser.rs:34-36). -/
def Serializer.visit_i16_default (S : Serializer σ ε) (s : σ) (v : Int) : Except ε σ :=
  S.visit_i64 s (signedWrap 16 v)

/-- Default body of `visit_i32` (src/ser.rs:39-41). -/
def Serializer.visit_i32_default (S : Serializer σ ε) (s : σ) (v : Int) : Except ε σ :=
  S.visit_i64 s (signedWrap 32 v)

/-- Default body of `visit_usize` (src/ser.rs:47-49):
`self.visit_u64(v as u64)`. -/
def Serializer.visit_usize_default (S : Serializer σ ε) (s : σ) (v : Nat) : Except ε σ :=
  S.visit_u64 s (unsignedWrap 64 v)

/-- Default body of `visit_u8` (src/ser.rs:52-54). -/
def Serializer.visit_u8_default (S : Serializer σ ε) (s : σ) (v : Nat) : Except ε σ :=
  S.visit_u64 s (unsignedWrap 8 v)

/-- Default body of `visit_u16` (src/ser.rs:57-59). -/
def Serializer.visit_u16_default (S : Serializer σ ε) (s : σ) (v : Nat) : Except ε σ :=
  S.visit_u64 s (unsignedWrap 16 v)

/-- Default body of `visit_u32` (src/ser.rs:62-64). -/
def Serializer.visit_u32_default (S : Serializer σ ε) (s : σ) (v : Nat) : Except ε σ :=
  S.visit_u64 s (unsignedWrap 32 v)

/-- Default body of `visit_f32` (src/ser.rs:70-72):
`self.visit_f64(v as f64)`. Float values are opaque bit patterns; the
std widening cast `f32 as f64` is the explicit argument `asF64`. -/
def Serializer.visit_f32_default (asF64 : Nat → Nat) (S : Serializer σ ε)
    (s : σ) (v : Nat) : Except ε σ :=
  S.visit_f64 s (asF64 v)

/-- Default body of `visit_named_unit` (src/ser.rs:89-91): discards the
name and calls `self.visit_unit()`. -/
def Serializer.visit_named_unit_default (S : Serializer σ ε) (s : σ)
    (_name : String) : Except ε σ :=
  S.visit_unit s

/-- Default body of `visit_enum_unit` (src/ser.rs:94-98). -/
def Serializer.visit_enum_unit_default (S : Serializer σ ε) (s : σ)
    (_name _variant : String) : Except ε σ :=
  S.visit_unit s

/-- Default body of `visit_named_seq` (src/ser.rs:109-115): discards
the name and calls `self.visit_seq(visitor)`. -/
def Serializer.visit_named_seq_default (S : Serializer σ ε) (s : σ)
    (_name : String) (visitor : SeqVis) : Except ε σ :=
  S.visit_seq s visitor

/-- Default body of `visit_enum_seq` (src/ser.rs:118-125). -/
def Serializer.visit_enum_seq_default (S : Serializer σ ε) (s : σ)
    (_name _variant : String) (visitor : SeqVis) : Except ε σ :=
  S.visit_seq s visitor

/-- Default body of `visit_named_map` (src/ser.rs:136-142). -/
def Serializer.visit_named_map_default (S : Serializer σ ε) (s : σ)
    (_name : String) (visitor : MapIteratorVisitor Value Value) : Except ε σ :=
  S.visit_map s visitor

/-- Default body of `visit_enum_map` (src/ser.rs:145-152). -/
def Serializer.visit_enum_map_default (S : Serializer σ ε) (s : σ)
    (_name _variant : String) (visitor : MapIteratorVisitor Value Value) : Except ε σ :=
  S.visit_map s visitor

/-- The built-in `Serialize` impls of src/ser.rs over the `Value`
universe, dispatching to the `Serializer` methods exactly as each impl
does: scalars via `impl_visit!` (lines 199-212), strings (216-232),
`Option` (236-246), the dynamic sequences (297-338) and maps (575-598)
via the iterator adapters with `Some(len)` hints, tuples (408-415,
420-523) via `TupleVisitorN::new`, unit (342-349), and the ownership
wrappers (602-645) delegating verbatim to `(**self).serialize`. -/
def Value.serialize (S : Serializer σ ε) : Value → σ → Except ε σ
  | .bool b, s => S.visit_bool s b
  | .isize v, s => S.visit_isize s v
  | .i8 v, s => S.visit_i8 s v
  | .i16 v, s => S.visit_i16 s v
  | .i32 v, s => S.visit_i32 s v
  | .i64 v, s => S.visit_i64 s v
  | .usize v, s => S.visit_usize s v
  | .u8 v, s => S.visit_u8 s v
  | .u16 v, s => S.visit_u16 s v
  | .u32 v, s => S.visit_u32 s v
  | .u64 v, s => S.visit_u64 s v
  | .char c, s => S.visit_char s c
  | .str v, s => S.visit_str s v
  | .unit, s => S.visit_unit s
  | .noneV, s => S.visit_none s
  | .someV v, s => S.visit_some s v
  | .slice l, s => S.visit_seq s (.iter (SeqIteratorVisitor.new l (some l.length)))
  | .vec l, s => S.visit_seq s (.iter (SeqIteratorVisitor.new l (some l.length)))
  | .btreeSet l, s => S.visit_seq s (.iter (SeqIteratorVisitor.new l (some l.length)))
  | .hashSet l, s => S.visit_seq s (.iter (SeqIteratorVisitor.new l (some l.length)))
  | .tuple l, s => S.visit_seq s (.tup (TupleVisitor.new l))
  | .map ps, s => S.visit_map s (MapIteratorVisitor.new ps (some ps.length))
  | .hashMap ps, s => S.visit_map s (MapIteratorVisitor.new ps (some ps.length))
  | .ref v, s => Value.serialize S v s
  | .mutRef v, s => Value.serialize S v s
  | .box v, s => Value.serialize S v s
  | .rc v, s => Value.serialize S v s
  | .arc v, s => Value.serialize S v s

/-- Repeatedly calls `SeqIteratorVisitor.visit` (`n` calls), collecting
the per-call results; the caller's driving loop, per the consumer
contract of the spec. Aborts on the first error, as every sink must. -/
def SeqIteratorVisitor.drive (elt : σ → Bool → V → Except ε σ) :
    Nat → SeqIteratorVisitor V → σ →
    Except ε (List (Option Unit) × SeqIteratorVisitor V × σ)
  | 0, vis, s => .ok ([], vis, s)
  | n + 1, vis, s =>
    match vis.visit elt s with
    | .ok (r, vis2, s2) =>
      match SeqIteratorVisitor.drive elt n vis2 s2 with
      | .ok (rs, vis3, s3) => .ok (r :: rs, vis3, s3)
      | .error e => .error e
    | .error e => .error e

/-- The driving loop over `MapIteratorVisitor.visit`. -/
def MapIteratorVisitor.drive (elt : σ → Bool → K → W → Except ε σ) :
    Nat → MapIteratorVisitor K W → σ →
    Except ε (List (Option Unit) × MapIteratorVisitor K W × σ)
  | 0, vis, s => .ok ([], vis, s)
  | n + 1, vis, s =>
    match vis.visit elt s with
    | .ok (r, vis2, s2) =>
      match MapIteratorVisitor.drive elt n vis2 s2 with
      | .ok (rs, vis3, s3) => .ok (r :: rs, vis3, s3)
      | .error e => .error e
    | .error e => .error e

/-- The driving loop over `TupleVisitor.visit`. -/
def TupleVisitor.drive (elt : σ → Bool → V → Except ε σ) :
    Nat → TupleVisitor V → σ →
    Except ε (List (Option Unit) × TupleVisitor V × σ)
  | 0, vis, s => .ok ([], vis, s)
  | n + 1, vis, s =>
    match vis.visit elt s with
    | .ok (r, vis2, s2) =>
      match TupleVisitor.drive elt n vis2 s2 with
      | .ok (rs, vis3, s3) => .ok (r :: rs, vis3, s3)
      | .error e => .error e
    | .error e => .error e

/-- The driving loop over `SeqVis.visit`, returning only the final sink
state (what `visit_seq` leaves behind). -/
def SeqVis.drive (elt : σ → Bool → Value → Except ε σ) :
    Nat → SeqVis → σ → Except ε σ
  | 0, _, s => .ok s
  | n + 1, vis, s =>
    match vis.visit elt s with
    | .ok (some _, vis2, s2) => SeqVis.drive elt n vis2 s2
    | .ok (none, _, s2) => .ok s2
    | .error e => .error e

/-- The driving loop over `MapIteratorVisitor.visit`, returning only
the final sink state (what `visit_map` leaves behind). -/
def mapDrive (elt : σ → Bool → Value → Value → Except ε σ) :
    Nat → MapIteratorVisitor Value Value → σ → Except ε σ
  | 0, _, s => .ok s
  | n + 1, vis, s =>
    match vis.visit elt s with
    | .ok (some _, vis2, s2) => mapDrive elt n vis2 s2
    | .ok (none, _, s2) => .ok s2
    | .error e => .error e

/-- What a never-failing sink whose element visit is `f` accumulates
over one pass of the elements `l`, entered with first-flag `first`: the
elements in source order, the flag true only for the entry value. -/
def foldElts (f : σ → Bool → V → σ) : σ → Bool → List V → σ
  | s, _, [] => s
  | s, first, v :: rest => foldElts f (f s first v) false rest

/-- Pair version of `foldElts` for map passes. -/
def foldPairs (f : σ → Bool → K → W → σ) : σ → Bool → List (K × W) → σ
  | s, _, [] => s
  | s, first, (k, w) :: rest => foldPairs f (f s first k w) false rest

/-- The elements of `l` tagged with the first-flag each one is visited
with when a pass is entered with flag `first`: the head gets `first`,
every later element gets `false`. -/
def flagList : List V → Bool → List (Bool × V)
  | [], _ => []
  | v :: rest, first => (first, v) :: flagList rest false

/-- Pair version of `flagList`. -/
def flagPairs : List (K × W) → Bool → List (Bool × K × W)
  | [], _ => []
  | (k, w) :: rest, first => (first, k, w) :: flagPairs rest false

mutual

/-- The event sequence a conforming sink (spec §6, consumer boundary)
observes when `v` describes itself: the canonical full-fidelity
rendering of each `Serializer` method call as its `Event`. Composite
values open with begin + hint, interleave one `seqElt`/`mapElt` marker
(carrying the first-flag) with each element's own events, and close
with end. -/
def traceSer : Value → List Event
  | .bool b => [.bool b]
  | .isize v => [.isize v]
  | .i8 v => [.i8 v]
  | .i16 v => [.i16 v]
  | .i32 v => [.i32 v]
  | .i64 v => [.i64 v]
  | .usize v => [.usize v]
  | .u8 v => [.u8 v]
  | .u16 v => [.u16 v]
  | .u32 v => [.u32 v]
  | .u64 v => [.u64 v]
  | .char c => [.char c]
  | .str s => [.str s]
  | .unit => [.unit]
  | .noneV => [.noneE]
  | .someV v => .someE :: traceSer v
  | .slice l => .seqBegin (some l.length) :: traceSeqElts l true ++ [.seqEnd]
  | .vec l => .seqBegin (some l.length) :: traceSeqElts l true ++ [.seqEnd]
  | .btreeSet l => .seqBegin (some l.length) :: traceSeqElts l true ++ [.seqEnd]
  | .hashSet l => .seqBegin (some l.length) :: traceSeqElts l true ++ [.seqEnd]
  | .tuple l => .seqBegin (some l.length) :: traceSeqElts l true ++ [.seqEnd]
  | .map ps => .mapBegin (some ps.length) :: traceMapElts ps true ++ [.mapEnd]
  | .hashMap ps => .mapBegin (some ps.length) :: traceMapElts ps true ++ [.mapEnd]
  | .ref v => traceSer v
  | .mutRef v => traceSer v
  | .box v => traceSer v
  | .rc v => traceSer v
  | .arc v => traceSer v

/-- Events of one sequence pass over elements `l`, entered with
first-flag `first`. -/
def traceSeqElts : List Value → Bool → List Event
  | [], _ => []
  | v :: rest, first => .seqElt first :: traceSer v ++ traceSeqElts rest false

/-- Events of one map pass over pairs `ps`. -/
def traceMapElts : List (Value × Value) → Bool → List Event
  | [], _ => []
  | (k, w) :: rest, first =>
    .mapElt first :: (traceSer k ++ traceSer w) ++ traceMapElts rest false

end

/-- Field `visit_seq_elt` of the canonical trace sink: record the element
marker, then let the element describe itself. -/
def traceSeqEltF (tr : List Event) (first : Bool) (v : Value) :
    Except Unit (List Event) :=
  .ok (tr ++ .seqElt first :: traceSer v)

/-- Field `visit_map_elt` of the canonical trace sink. -/
def traceMapEltF (tr : List Event) (first : Bool) (k w : Value) :
    Except Unit (List Event) :=
  .ok (tr ++ .mapElt first :: (traceSer k ++ traceSer w))

/-- Field `visit_seq` of the canonical trace sink: record the begin event
with the visitor's reported length hint, drive the visitor through the
real adapter code until exhaustion, record the end event. -/
def traceVisitSeq (tr : List Event) (vis : SeqVis) : Except Unit (List Event) :=
  match SeqVis.drive traceSeqEltF (vis.remaining + 1) vis
      (tr ++ [.seqBegin vis.length]) with
  | .ok tr2 => .ok (tr2 ++ [.seqEnd])
  | .error e => .error e

/-- Field `visit_map` of the canonical trace sink. -/
def traceVisitMap (tr : List Event) (vis : MapIteratorVisitor Value Value) :
    Except Unit (List Event) :=
  match mapDrive traceMapEltF (vis.iter.length + 1) vis
      (tr ++ [.mapBegin vis.length]) with
  | .ok tr2 => .ok (tr2 ++ [.mapEnd])
  | .error e => .error e

/-- The canonical trace sink: a full-fidelity `Serializer` instance
whose state is the list of events recorded so far and which never
fails. Scalar visits record their event; `visit_some` records the
marker and lets the inner value describe itself; the composite visits
drive the visitors they are handed through the adapters' own `visit`. -/
def traceS : Serializer (List Event) Unit where
  visit_bool := fun tr b => .ok (tr ++ [.bool b])
  visit_isize := fun tr v => .ok (tr ++ [.isize v])
  visit_i8 := fun tr v => .ok (tr ++ [.i8 v])
  visit_i16 := fun tr v => .ok (tr ++ [.i16 v])
  visit_i32 := fun tr v => .ok (tr ++ [.i32 v])
  visit_i64 := fun tr v => .ok (tr ++ [.i64 v])
  visit_usize := fun tr v => .ok (tr ++ [.usize v])
  visit_u8 := fun tr v => .ok (tr ++ [.u8 v])
  visit_u16 := fun tr v => .ok (tr ++ [.u16 v])
  visit_u32 := fun tr v => .ok (tr ++ [.u32 v])
  visit_u64 := fun tr v => .ok (tr ++ [.u64 v])
  visit_f32 := fun tr v => .ok (tr ++ [.f32 v])
  visit_f64 := fun tr v => .ok (tr ++ [.f64 v])
  visit_char := fun tr c => .ok (tr ++ [.char c])
  visit_str := fun tr s => .ok (tr ++ [.str s])
  visit_unit := fun tr => .ok (tr ++ [.unit])
  visit_named_unit := fun tr name => .ok (tr ++ [.namedUnit name])
  visit_enum_unit := fun tr name variant => .ok (tr ++ [.enumUnit name variant])
  visit_none := fun tr => .ok (tr ++ [.noneE])
  visit_some := fun tr v => .ok (tr ++ .someE :: traceSer v)
  visit_seq := traceVisitSeq
  visit_named_seq := fun tr _ vis => traceVisitSeq tr vis
  visit_enum_seq := fun tr _ _ vis => traceVisitSeq tr vis
  visit_seq_elt := traceSeqEltF
  visit_map := traceVisitMap
  visit_named_map := fun tr _ vis => traceVisitMap tr vis
  visit_enum_map := fun tr _ _ vis => traceVisitMap tr vis
  visit_map_elt := traceMapEltF

/-- A sink elt-method that never fails, with pure effect `f`. -/
def okSink (f : σ → Bool → V → σ) : σ → Bool → V → Except ε σ :=
  fun s b v => .ok (f s b v)

/-- Pair version of `okSink`. -/
def okSinkKV (f : σ → Bool → K → W → σ) : σ → Bool → K → W → Except ε σ :=
  fun s b k w => .ok (f s b k w)


theorem seqIter_visit_cons {σ V ε : Type} (f : σ → Bool → V → σ) (v : V)
    (rest : List V) (len : Option Nat) (first : Bool) (s : σ) :
    SeqIteratorVisitor.visit ⟨v :: rest, len, first⟩ (okSink (ε := ε) f) s
    = .ok (some (), ⟨rest, len, false⟩, f s first v) := rfl

theorem seqIter_visit_nil {σ V ε : Type} (f : σ → Bool → V → σ)
    (len : Option Nat) (first : Bool) (s : σ) :
    SeqIteratorVisitor.visit (V := V) ⟨[], len, first⟩ (okSink (ε := ε) f) s
    = .ok (none, ⟨[], len, false⟩, s) := rfl

theorem seqIter_drive_ok {σ V ε : Type} (f : σ → Bool → V → σ) (len : Option Nat) :
    ∀ (l : List V) (first : Bool) (s : σ),
      SeqIteratorVisitor.drive (okSink (ε := ε) f) (l.length + 1) ⟨l, len, first⟩ s
      = .ok (List.replicate l.length (some ()) ++ [none], ⟨[], len, false⟩,
             foldElts f s first l)
  | [], first, s => by
    rw [List.length_nil, SeqIteratorVisitor.drive, seqIter_visit_nil]
    simp [SeqIteratorVisitor.drive, foldElts]
  | v :: rest, first, s => by
    rw [List.length_cons, SeqIteratorVisitor.drive, seqIter_visit_cons]
    simp only [seqIter_drive_ok f len rest false (f s first v)]
    simp [foldElts, List.replicate_succ]

theorem mapIter_visit_cons {σ K W ε : Type} (f : σ → Bool → K → W → σ) (k : K)
    (w : W) (rest : List (K × W)) (len : Option Nat) (first : Bool) (s : σ) :
    MapIteratorVisitor.visit ⟨(k, w) :: rest, len, first⟩ (okSinkKV (ε := ε) f) s
    = .ok (some (), ⟨rest, len, false⟩, f s first k w) := rfl

theorem mapIter_visit_nil {σ K W ε : Type} (f : σ → Bool → K → W → σ)
    (len : Option Nat) (first : Bool) (s : σ) :
    MapIteratorVisitor.visit (K := K) (W := W) ⟨[], len, first⟩
      (okSinkKV (ε := ε) f) s
    = .ok (none, ⟨[], len, false⟩, s) := rfl

theorem mapIter_drive_ok {σ K W ε : Type} (f : σ → Bool → K → W → σ)
    (len : Option Nat) :
    ∀ (ps : List (K × W)) (first : Bool) (s : σ),
      MapIteratorVisitor.drive (okSinkKV (ε := ε) f) (ps.length + 1) ⟨ps, len, first⟩ s
      = .ok (List.replicate ps.length (some ()) ++ [none], ⟨[], len, false⟩,
             foldPairs f s first ps)
  | [], first, s => by
    rw [List.length_nil, MapIteratorVisitor.drive, mapIter_visit_nil]
    simp [MapIteratorVisitor.drive, foldPairs]
  | (k, w) :: rest, first, s => by
    rw [List.length_cons, MapIteratorVisitor.drive, mapIter_visit_cons]
    simp only [mapIter_drive_ok f len rest false (f s first k w)]
    simp [foldPairs, List.replicate_succ]

theorem tuple_visit_hit {σ V ε : Type} (f : σ → Bool → V → σ) (l : List V)
    (st : Nat) (h : st < l.length) (first : Bool) (s : σ) :
    TupleVisitor.visit ⟨l, st, first⟩ (okSink (ε := ε) f) s
    = .ok (some (), ⟨l, st + 1, false⟩, f s first l[st]) := by
  simp [TupleVisitor.visit, List.getElem?_eq_getElem h, okSink]

theorem tuple_visit_miss {σ V ε : Type} (f : σ → Bool → V → σ) (l : List V)
    (st : Nat) (h : l.length ≤ st) (first : Bool) (s : σ) :
    TupleVisitor.visit ⟨l, st, first⟩ (okSink (ε := ε) f) s
    = .ok (none, ⟨l, st, false⟩, s) := by
  simp [TupleVisitor.visit, List.getElem?_eq_none h]

theorem tuple_drive_ok {σ V ε : Type} (f : σ → Bool → V → σ) (l : List V) :
    ∀ (fuel st : Nat) (first : Bool) (s : σ), st + fuel = l.length →
      TupleVisitor.drive (okSink (ε := ε) f) (fuel + 1) ⟨l, st, first⟩ s
      = .ok (List.replicate fuel (some ()) ++ [none], ⟨l, l.length, false⟩,
             foldElts f s first (l.drop st))
  | 0, st, first, s, h => by
    have hlen : l.length ≤ st := by omega
    have hst : st = l.length := by omega
    subst hst
    rw [TupleVisitor.drive, tuple_visit_miss f l l.length hlen]
    simp only [TupleVisitor.drive]
    simp only [List.drop_eq_nil_of_le hlen]
    simp only [foldElts]
    simp
  | fuel + 1, st, first, s, h => by
    have hst : st < l.length := by omega
    rw [TupleVisitor.drive, tuple_visit_hit f l st hst]
    simp only [tuple_drive_ok f l fuel (st + 1) false (f s first l[st]) (by omega)]
    rw [List.drop_eq_getElem_cons hst]
    simp only [foldElts]
    simp only [List.replicate_succ]
    simp

theorem foldElts_traceSeq :
    ∀ (l : List Value) (first : Bool) (tr : List Event),
      foldElts (fun tr b v => tr ++ .seqElt b :: traceSer v) tr first l
      = tr ++ traceSeqElts l first
  | [], first, tr => by simp [foldElts, traceSeqElts]
  | v :: rest, first, tr => by
    simp only [foldElts, traceSeqElts, foldElts_traceSeq rest false]
    simp

theorem foldPairs_traceMap :
    ∀ (ps : List (Value × Value)) (first : Bool) (tr : List Event),
      foldPairs (fun tr b k w => tr ++ .mapElt b :: (traceSer k ++ traceSer w))
        tr first ps
      = tr ++ traceMapElts ps first
  | [], first, tr => by simp [foldPairs, traceMapElts]
  | (k, w) :: rest, first, tr => by
    simp only [foldPairs, traceMapElts, foldPairs_traceMap rest false]
    simp

theorem seqVis_visit_iter_cons (v : Value) (rest : List Value) (len : Option Nat)
    (first : Bool) (tr : List Event) :
    SeqVis.visit (.iter ⟨v :: rest, len, first⟩) traceSeqEltF tr
    = .ok (some (), .iter ⟨rest, len, false⟩, tr ++ .seqElt first :: traceSer v) := rfl

theorem seqVis_visit_iter_nil (len : Option Nat) (first : Bool) (tr : List Event) :
    SeqVis.visit (.iter ⟨[], len, first⟩) traceSeqEltF tr
    = .ok (none, .iter ⟨[], len, false⟩, tr) := rfl

theorem seqVis_visit_tup_hit (l : List Value) (st : Nat) (h : st < l.length)
    (first : Bool) (tr : List Event) :
    SeqVis.visit (.tup ⟨l, st, first⟩) traceSeqEltF tr
    = .ok (some (), .tup ⟨l, st + 1, false⟩, tr ++ .seqElt first :: traceSer l[st]) := by
  simp [SeqVis.visit, TupleVisitor.visit, List.getElem?_eq_getElem h, traceSeqEltF]

theorem seqVis_visit_tup_miss (l : List Value) (st : Nat) (h : l.length ≤ st)
    (first : Bool) (tr : List Event) :
    SeqVis.visit (.tup ⟨l, st, first⟩) traceSeqEltF tr
    = .ok (none, .tup ⟨l, st, false⟩, tr) := by
  simp [SeqVis.visit, TupleVisitor.visit, List.getElem?_eq_none h]

theorem seqVis_drive_iter (len : Option Nat) :
    ∀ (l : List Value) (first : Bool) (tr : List Event),
      SeqVis.drive traceSeqEltF (l.length + 1) (.iter ⟨l, len, first⟩) tr
      = .ok (tr ++ traceSeqElts l first)
  | [], first, tr => by
    rw [List.length_nil, SeqVis.drive, seqVis_visit_iter_nil]
    simp [traceSeqElts]
  | v :: rest, first, tr => by
    rw [List.length_cons, SeqVis.drive, seqVis_visit_iter_cons]
    simp only [seqVis_drive_iter len rest false]
    simp [traceSeqElts]

theorem seqVis_drive_tup (l : List Value) :
    ∀ (fuel st : Nat) (first : Bool) (tr : List Event), st + fuel = l.length →
      SeqVis.drive traceSeqEltF (fuel + 1) (.tup ⟨l, st, first⟩) tr
      = .ok (tr ++ traceSeqElts (l.drop st) first)
  | 0, st, first, tr, h => by
    have hlen : l.length ≤ st := by omega
    rw [SeqVis.drive, seqVis_visit_tup_miss l st hlen]
    simp [List.drop_eq_nil_of_le hlen, traceSeqElts]
  | fuel + 1, st, first, tr, h => by
    have hst : st < l.length := by omega
    rw [SeqVis.drive, seqVis_visit_tup_hit l st hst]
    simp only [seqVis_drive_tup l fuel (st + 1) false _ (by omega)]
    rw [List.drop_eq_getElem_cons hst]
    simp [traceSeqElts]

theorem mapVis_visit_cons_trace (k w : Value) (rest : List (Value × Value))
    (len : Option Nat) (first : Bool) (tr : List Event) :
    MapIteratorVisitor.visit ⟨(k, w) :: rest, len, first⟩ traceMapEltF tr
    = .ok (some (), ⟨rest, len, false⟩,
           tr ++ .mapElt first :: (traceSer k ++ traceSer w)) := rfl

theorem mapVis_visit_nil_trace (len : Option Nat) (first : Bool) (tr : List Event) :
    MapIteratorVisitor.visit (K := Value) (W := Value) ⟨[], len, first⟩
      traceMapEltF tr
    = .ok (none, ⟨[], len, false⟩, tr) := rfl

theorem mapDrive_trace (len : Option Nat) :
    ∀ (ps : List (Value × Value)) (first : Bool) (tr : List Event),
      mapDrive traceMapEltF (ps.length + 1) ⟨ps, len, first⟩ tr
      = .ok (tr ++ traceMapElts ps first)
  | [], first, tr => by
    rw [List.length_nil, mapDrive, mapVis_visit_nil_trace]
    simp [traceMapElts]
  | (k, w) :: rest, first, tr => by
    rw [List.length_cons, mapDrive, mapVis_visit_cons_trace]
    simp only [mapDrive_trace len rest false]
    simp [traceMapElts]

theorem traceVisitSeq_iter (l : List Value) (len : Option Nat) (tr : List Event) :
    traceVisitSeq tr (.iter (SeqIteratorVisitor.new l len))
    = .ok (tr ++ .seqBegin len :: (traceSeqElts l true ++ [.seqEnd])) := by
  rw [traceVisitSeq]
  simp only [SeqVis.remaining, SeqVis.length, SeqIteratorVisitor.new,
    SeqIteratorVisitor.length]
  rw [seqVis_drive_iter len l true]
  simp

theorem traceVisitSeq_tup (l : List Value) (tr : List Event) :
    traceVisitSeq tr (.tup (TupleVisitor.new l))
    = .ok (tr ++ .seqBegin (some l.length) :: (traceSeqElts l true ++ [.seqEnd])) := by
  rw [traceVisitSeq]
  simp only [SeqVis.remaining, SeqVis.length, TupleVisitor.new, TupleVisitor.length]
  simp only [Nat.sub_zero]
  rw [seqVis_drive_tup l l.length 0 true _ (by omega)]
  simp

theorem traceVisitMap_new (ps : List (Value × Value)) (len : Option Nat)
    (tr : List Event) :
    traceVisitMap tr (MapIteratorVisitor.new ps len)
    = .ok (tr ++ .mapBegin len :: (traceMapElts ps true ++ [.mapEnd])) := by
  rw [traceVisitMap]
  simp only [MapIteratorVisitor.new, MapIteratorVisitor.length]
  rw [mapDrive_trace len ps true]
  simp

/-- Driving any built-in value against the canonical trace sink through
the real bindings and adapters records exactly its canonical event
sequence, and never fails. -/
theorem serialize_traceS : ∀ (v : Value) (tr : List Event),
    Value.serialize traceS v tr = .ok (tr ++ traceSer v)
  | .bool b, tr => by simp [Value.serialize, traceS, traceSer]
  | .isize v, tr => by simp [Value.serialize, traceS, traceSer]
  | .i8 v, tr => by simp [Value.serialize, traceS, traceSer]
  | .i16 v, tr => by simp [Value.serialize, traceS, traceSer]
  | .i32 v, tr => by simp [Value.serialize, traceS, traceSer]
  | .i64 v, tr => by simp [Value.serialize, traceS, traceSer]
  | .usize v, tr => by simp [Value.serialize, traceS, traceSer]
  | .u8 v, tr => by simp [Value.serialize, traceS, traceSer]
  | .u16 v, tr => by simp [Value.serialize, traceS, traceSer]
  | .u32 v, tr => by simp [Value.serialize, traceS, traceSer]
  | .u64 v, tr => by simp [Value.serialize, traceS, traceSer]
  | .char c, tr => by simp [Value.serialize, traceS, traceSer]
  | .str v, tr => by simp [Value.serialize, traceS, traceSer]
  | .unit, tr => by simp [Value.serialize, traceS, traceSer]
  | .noneV, tr => by simp [Value.serialize, traceS, traceSer]
  | .someV v, tr => by simp [Value.serialize, traceS, traceSer]
  | .slice l, tr => by
    rw [Value.serialize]
    show traceVisitSeq tr (.iter (SeqIteratorVisitor.new l (some l.length)))
      = _
    rw [traceVisitSeq_iter]
    simp [traceSer]
  | .vec l, tr => by
    rw [Value.serialize]
    show traceVisitSeq tr (.iter (SeqIteratorVisitor.new l (some l.length)))
      = _
    rw [traceVisitSeq_iter]
    simp [traceSer]
  | .btreeSet l, tr => by
    rw [Value.serialize]
    show traceVisitSeq tr (.iter (SeqIteratorVisitor.new l (some l.length)))
      = _
    rw [traceVisitSeq_iter]
    simp [traceSer]
  | .hashSet l, tr => by
    rw [Value.serialize]
    show traceVisitSeq tr (.iter (SeqIteratorVisitor.new l (some l.length)))
      = _
    rw [traceVisitSeq_iter]
    simp [traceSer]
  | .tuple l, tr => by
    rw [Value.serialize]
    show traceVisitSeq tr (.tup (TupleVisitor.new l)) = _
    rw [traceVisitSeq_tup]
    simp [traceSer]
  | .map ps, tr => by
    rw [Value.serialize]
    show traceVisitMap tr (MapIteratorVisitor.new ps (some ps.length)) = _
    rw [traceVisitMap_new]
    simp [traceSer]
  | .hashMap ps, tr => by
    rw [Value.serialize]
    show traceVisitMap tr (MapIteratorVisitor.new ps (some ps.length)) = _
    rw [traceVisitMap_new]
    simp [traceVisitMap_new, traceSer]
  | .ref v, tr => by
    rw [Value.serialize, serialize_traceS v tr]
    simp [traceSer]
  | .mutRef v, tr => by
    rw [Value.serialize, serialize_traceS v tr]
    simp [traceSer]
  | .box v, tr => by
    rw [Value.serialize, serialize_traceS v tr]
    simp [traceSer]
  | .rc v, tr => by
    rw [Value.serialize, serialize_traceS v tr]
    simp [traceSer]
  | .arc v, tr => by
    rw [Value.serialize, serialize_traceS v tr]
    simp [traceSer]

/-- The UTF-8 encoding of a code point (the bytes `char::encode_utf8`
writes, modelled from the std behavior at the value level). -/
def encodeUtf8 (n : Nat) : List Nat :=
  if n < 0x80 then [n]
  else if n < 0x800 then [0xC0 + n / 64, 0x80 + n % 64]
  else if n < 0x10000 then
    [0xE0 + n / 4096, 0x80 + n / 64 % 64, 0x80 + n % 64]
  else
    [0xF0 + n / 262144, 0x80 + n / 4096 % 64, 0x80 + n / 64 % 64, 0x80 + n % 64]

/-- Models `char::encode_utf8` into a buffer of `bufLen` bytes: `Some` (the
written bytes; their count is the returned length) when the encoding
fits, `None` when the buffer is too small. -/
def encodeUtf8Into (n : Nat) (bufLen : Nat) : Option (List Nat) :=
  if (encodeUtf8 n).length ≤ bufLen then some (encodeUtf8 n) else none

mutual

/-- UTF-8 validation and decoding to code points, modelling
`str::from_utf8` (RFC 3629 well-formed sequences: lead bytes
`C2..DF`, `E0..EF` with the `E0`/`ED` second-byte restrictions that
exclude overlong forms and surrogates, `F0..F4` with the `F0`/`F4`
restrictions that keep code points in `U+10000..U+10FFFF`). -/
def decodeUtf8 : List Nat → Option (List Nat)
  | [] => some []
  | b0 :: rest =>
    if b0 < 0x80 then (decodeUtf8 rest).map (fun cs => b0 :: cs)
    else if b0 < 0xC2 then none
    else if b0 < 0xE0 then decodeTail2 b0 rest
    else if b0 < 0xF0 then decodeTail3 b0 rest
    else if b0 < 0xF5 then decodeTail4 b0 rest
    else none

/-- Continuation bytes of a 2-byte sequence led by `b0`. -/
def decodeTail2 (b0 : Nat) : List Nat → Option (List Nat)
  | b1 :: rest =>
    if 0x80 ≤ b1 ∧ b1 < 0xC0 then
      (decodeUtf8 rest).map (fun cs => ((b0 - 0xC0) * 64 + (b1 - 0x80)) :: cs)
    else none
  | [] => none

/-- Continuation bytes of a 3-byte sequence led by `b0`; the `E0`/`ED`
second-byte restrictions exclude overlong forms and surrogates. -/
def decodeTail3 (b0 : Nat) : List Nat → Option (List Nat)
  | b1 :: b2 :: rest =>
    if 0x80 ≤ b1 ∧ b1 < 0xC0 ∧ (b0 = 0xE0 → 0xA0 ≤ b1) ∧
        (b0 = 0xED → b1 < 0xA0) ∧ 0x80 ≤ b2 ∧ b2 < 0xC0 then
      (decodeUtf8 rest).map
        (fun cs => ((b0 - 0xE0) * 4096 + (b1 - 0x80) * 64 + (b2 - 0x80)) :: cs)
    else none
  | _ => none

/-- Continuation bytes of a 4-byte sequence led by `b0`; the `F0`/`F4`
second-byte restrictions keep code points in `U+10000..U+10FFFF`. -/
def decodeTail4 (b0 : Nat) : List Nat → Option (List Nat)
  | b1 :: b2 :: b3 :: rest =>
    if 0x80 ≤ b1 ∧ b1 < 0xC0 ∧ (b0 = 0xF0 → 0x90 ≤ b1) ∧
        (b0 = 0xF4 → b1 < 0x90) ∧ 0x80 ≤ b2 ∧ b2 < 0xC0 ∧
        0x80 ≤ b3 ∧ b3 < 0xC0 then
      (decodeUtf8 rest).map
        (fun cs => ((b0 - 0xF0) * 262144 + (b1 - 0x80) * 4096 +
          (b2 - 0x80) * 64 + (b3 - 0x80)) :: cs)
    else none
  | _ => none

end

/-- Rebuild a string from decoded code points. -/
def stringOfCodePoints (l : List Nat) : String :=
  ⟨l.map Char.ofNat⟩

/-- Models `str::from_utf8` at the value level: `Some` of the decoded string
iff the bytes are valid UTF-8. -/
def fromUtf8 (bytes : List Nat) : Option String :=
  (decodeUtf8 bytes).map stringOfCodePoints

/-- Default body of `visit_char` (src/ser.rs:77-82): encode the
character into the 4-byte stack buffer `[0; 4]`, re-read the written
prefix as UTF-8, forward to `visit_str`. Each of the two `unwrap`s is a
potential panic, modelled as `none`. -/
def Serializer.visit_char_default (S : Serializer σ ε) (s : σ) (c : Char) :
    Option (Except ε σ) :=
  match encodeUtf8Into c.toNat 4 with
  | some bytes =>
    match fromUtf8 bytes with
    | some str => some (S.visit_str s str)
    | none => none
  | none => none

theorem encodeUtf8_length_le (n : Nat) : (encodeUtf8 n).length ≤ 4 := by
  rw [encodeUtf8]
  split
  · simp
  · split
    · simp
    · split <;> simp

theorem decodeUtf8_one (b0 : Nat) (rest : List Nat) (h : b0 < 0x80) :
    decodeUtf8 (b0 :: rest) = (decodeUtf8 rest).map (fun cs => b0 :: cs) := by
  rw [decodeUtf8, if_pos h]

theorem decodeUtf8_two (b0 b1 : Nat) (rest : List Nat)
    (h0 : 0xC2 ≤ b0) (h1 : b0 < 0xE0) (hb : 0x80 ≤ b1 ∧ b1 < 0xC0) :
    decodeUtf8 (b0 :: b1 :: rest)
    = (decodeUtf8 rest).map
        (fun cs => ((b0 - 0xC0) * 64 + (b1 - 0x80)) :: cs) := by
  rw [decodeUtf8, if_neg (by omega), if_neg (by omega), if_pos (by omega),
    decodeTail2, if_pos hb]

theorem decodeUtf8_three (b0 b1 b2 : Nat) (rest : List Nat)
    (h0 : 0xE0 ≤ b0) (h1 : b0 < 0xF0)
    (hb : 0x80 ≤ b1 ∧ b1 < 0xC0 ∧ (b0 = 0xE0 → 0xA0 ≤ b1) ∧
      (b0 = 0xED → b1 < 0xA0) ∧ 0x80 ≤ b2 ∧ b2 < 0xC0) :
    decodeUtf8 (b0 :: b1 :: b2 :: rest)
    = (decodeUtf8 rest).map
        (fun cs => ((b0 - 0xE0) * 4096 + (b1 - 0x80) * 64 + (b2 - 0x80)) :: cs) := by
  rw [decodeUtf8, if_neg (by omega), if_neg (by omega), if_neg (by omega),
    if_pos (by omega), decodeTail3, if_pos hb]

theorem decodeUtf8_four (b0 b1 b2 b3 : Nat) (rest : List Nat)
    (h0 : 0xF0 ≤ b0) (h1 : b0 < 0xF5)
    (hb : 0x80 ≤ b1 ∧ b1 < 0xC0 ∧ (b0 = 0xF0 → 0x90 ≤ b1) ∧
      (b0 = 0xF4 → b1 < 0x90) ∧ 0x80 ≤ b2 ∧ b2 < 0xC0 ∧
      0x80 ≤ b3 ∧ b3 < 0xC0) :
    decodeUtf8 (b0 :: b1 :: b2 :: b3 :: rest)
    = (decodeUtf8 rest).map
        (fun cs => ((b0 - 0xF0) * 262144 + (b1 - 0x80) * 4096 +
          (b2 - 0x80) * 64 + (b3 - 0x80)) :: cs) := by
  rw [decodeUtf8, if_neg (by omega), if_neg (by omega), if_neg (by omega),
    if_neg (by omega), if_pos (by omega), decodeTail4, if_pos hb]

theorem decode_encode (n : Nat) (h : n.isValidChar) :
    decodeUtf8 (encodeUtf8 n) = some [n] := by
  have hval : n < 55296 ∨ (57343 < n ∧ n < 1114112) := h
  have hnil : decodeUtf8 [] = some [] := rfl
  by_cases c1 : n < 0x80
  · have he : encodeUtf8 n = [n] := by rw [encodeUtf8, if_pos c1]
    rw [he, decodeUtf8_one n [] c1, hnil]
    simp
  · by_cases c2 : n < 0x800
    · have he : encodeUtf8 n = [0xC0 + n / 64, 0x80 + n % 64] := by
        rw [encodeUtf8, if_neg c1, if_pos c2]
      rw [he, decodeUtf8_two _ _ _ (by omega) (by omega) (by omega), hnil]
      simp only [Option.map_some', Option.some.injEq, List.cons.injEq, and_true]
      omega
    · by_cases c3 : n < 0x10000
      · have he : encodeUtf8 n
            = [0xE0 + n / 4096, 0x80 + n / 64 % 64, 0x80 + n % 64] := by
          rw [encodeUtf8, if_neg c1, if_neg c2, if_pos c3]
        rw [he, decodeUtf8_three _ _ _ _ (by omega) (by omega) (by omega), hnil]
        simp only [Option.map_some', Option.some.injEq, List.cons.injEq, and_true]
        omega
      · have he : encodeUtf8 n
            = [0xF0 + n / 262144, 0x80 + n / 4096 % 64, 0x80 + n / 64 % 64,
               0x80 + n % 64] := by
          rw [encodeUtf8, if_neg c1, if_neg c2, if_neg c3]
        rw [he, decodeUtf8_four _ _ _ _ _ (by omega) (by omega) (by omega), hnil]
        simp only [Option.map_some', Option.some.injEq, List.cons.injEq, and_true]
        omega

theorem charOfNat_toNat (c : Char) : Char.ofNat c.toNat = c := by
  have h : c.toNat.isValidChar := c.valid
  simp only [Char.ofNat, dif_pos h]
  apply Char.eq_of_val_eq
  apply UInt32.eq_of_toBitVec_eq
  apply BitVec.eq_of_toNat_eq
  rfl

/-- The default `visit_char` never panics: both unwraps succeed and the
body reduces to one `visit_str` of the one-codepoint string. -/
theorem visit_char_default_eq {σ ε : Type} (S : Serializer σ ε) (s : σ)
    (c : Char) :
    S.visit_char_default s c = some (S.visit_str s ⟨[c]⟩) := by
  have hv : c.toNat.isValidChar := c.valid
  have h1 : encodeUtf8Into c.toNat 4 = some (encodeUtf8 c.toNat) := by
    unfold encodeUtf8Into
    rw [if_pos (encodeUtf8_length_le c.toNat)]
  have h2 : fromUtf8 (encodeUtf8 c.toNat) = some ⟨[c]⟩ := by
    unfold fromUtf8
    rw [decode_encode c.toNat hv]
    simp [stringOfCodePoints, charOfNat_toNat]
  unfold Serializer.visit_char_default
  simp only [h1, h2]

/-- Models `Path::to_str` (std): a path wraps arbitrary bytes (Unix
representation); `to_str` yields `Some` of the decoded string iff the
bytes are valid UTF-8, `None` otherwise. -/
def pathToStr (bytes : List Nat) : Option String :=
  fromUtf8 bytes

/-- Models `impl Serialize for path::Path` and `path::PathBuf`
(src/ser.rs:649-663): `self.to_str().unwrap().serialize(serializer)`.
The inner serialize is the borrowed-str impl, i.e. a single
`visit_str`; the `unwrap` panics (modelled `none`) when the path is not
valid UTF-8. -/
def pathSerialize (S : Serializer σ ε) (bytes : List Nat) (s : σ) :
    Option (Except ε σ) :=
  match pathToStr bytes with
  | some str => some (S.visit_str s str)
  | none => none

/-- A sink element visit that records the `(first, element)` arguments
it receives, in order. -/
def recordElt (tr : List (Bool × V)) (b : Bool) (v : V) : List (Bool × V) :=
  tr ++ [(b, v)]

/-- Pair version of `recordElt`. -/
def recordPair (tr : List (Bool × K × W)) (b : Bool) (k : K) (w : W) :
    List (Bool × K × W) :=
  tr ++ [(b, k, w)]

theorem foldElts_record {V : Type} :
    ∀ (l : List V) (first : Bool) (tr : List (Bool × V)),
      foldElts recordElt tr first l = tr ++ flagList l first
  | [], first, tr => by simp [foldElts, flagList]
  | v :: rest, first, tr => by
    simp only [foldElts, flagList, recordElt, foldElts_record rest false]
    simp

theorem foldPairs_record {K W : Type} :
    ∀ (ps : List (K × W)) (first : Bool) (tr : List (Bool × K × W)),
      foldPairs recordPair tr first ps = tr ++ flagPairs ps first
  | [], first, tr => by simp [foldPairs, flagPairs]
  | (k, w) :: rest, first, tr => by
    simp only [foldPairs, flagPairs, recordPair, foldPairs_record rest false]
    simp

theorem flagList_map_fst_false {V : Type} :
    ∀ l : List V, (flagList l false).map Prod.fst = List.replicate l.length false
  | [] => by simp [flagList]
  | v :: rest => by
    simp [flagList, flagList_map_fst_false rest, List.replicate_succ]

theorem flagPairs_map_fst_false {K W : Type} :
    ∀ ps : List (K × W),
      (flagPairs ps false).map Prod.fst = List.replicate ps.length false
  | [] => by simp [flagPairs]
  | (k, w) :: rest => by
    simp [flagPairs, flagPairs_map_fst_false rest, List.replicate_succ]

theorem tuple_drive_exhausted {σ ε V : Type} (elt : σ → Bool → V → Except ε σ) :
    ∀ (k : Nat) (tv : TupleVisitor V) (s : σ), tv.elts.length ≤ tv.state →
      TupleVisitor.drive elt k tv s
      = .ok (List.replicate k none,
             if k = 0 then tv else { tv with first := false }, s)
  | 0, tv, s, h => by simp [TupleVisitor.drive]
  | k + 1, tv, s, h => by
    have hv : TupleVisitor.visit tv elt s
        = .ok (none, { tv with first := false }, s) := by
      rw [TupleVisitor.visit]
      rw [List.getElem?_eq_none h]
    rw [TupleVisitor.drive, hv]
    simp only [tuple_drive_exhausted elt k { tv with first := false } s h]
    simp only [List.replicate_succ]
    split <;> simp

/-- C1: a sequence adapter over `n` elements and a map adapter over `n`
pairs, driven one `visit` call at a time against any non-failing sink,
yield exactly `n` continuing results (`some ()`) followed by one
exhausted result (`none`); `foldElts`/`foldPairs` record that each
continuing step hands the sink exactly one element (pair) in source
order, with first=true exactly on step 0; the final adapter state shows
the source fully consumed. -/
theorem C1_adapter_pass_shape {σ ε V K W : Type}
    (f : σ → Bool → V → σ) (g : σ → Bool → K → W → σ)
    (l : List V) (ps : List (K × W)) (len lenM : Option Nat) (s t : σ) :
    SeqIteratorVisitor.drive (okSink (ε := ε) f) (l.length + 1)
      (SeqIteratorVisitor.new l len) s
      = .ok (List.replicate l.length (some ()) ++ [none],
             ⟨[], len, false⟩, foldElts f s true l)
    ∧ MapIteratorVisitor.drive (okSinkKV (ε := ε) g) (ps.length + 1)
      (MapIteratorVisitor.new ps lenM) t
      = .ok (List.replicate ps.length (some ()) ++ [none],
             ⟨[], lenM, false⟩, foldPairs g t true ps) :=
  ⟨seqIter_drive_ok f len l true s, mapIter_drive_ok g lenM ps true t⟩

/-- C2: over one full pass of each adapter (sequence iterator, map
iterator, fixed-arity tuple) a recording sink receives the first-flag
true on exactly the first element visit and false on all later ones:
the recorded flag-element trace is `flagList`/`flagPairs`, whose flag
projection is `true` followed by all-`false` (empty when the source is
empty, so the sink is never called at all). -/
theorem C2_first_flag_once {V K W : Type} (l : List V) (ps : List (K × W))
    (len lenM : Option Nat) :
    SeqIteratorVisitor.drive (okSink (ε := Unit) recordElt) (l.length + 1)
      (SeqIteratorVisitor.new l len) []
      = .ok (List.replicate l.length (some ()) ++ [none],
             ⟨[], len, false⟩, flagList l true)
    ∧ TupleVisitor.drive (okSink (ε := Unit) recordElt) (l.length + 1)
      (TupleVisitor.new l) []
      = .ok (List.replicate l.length (some ()) ++ [none],
             ⟨l, l.length, false⟩, flagList l true)
    ∧ MapIteratorVisitor.drive (okSinkKV (ε := Unit) recordPair) (ps.length + 1)
      (MapIteratorVisitor.new ps lenM) []
      = .ok (List.replicate ps.length (some ()) ++ [none],
             ⟨[], lenM, false⟩, flagPairs ps true)
    ∧ (flagList l true).map Prod.fst
      = (if l.length = 0 then [] else true :: List.replicate (l.length - 1) false)
    ∧ (flagPairs ps true).map Prod.fst
      = (if ps.length = 0 then []
         else true :: List.replicate (ps.length - 1) false) := by
  refine ⟨?_, ?_, ?_, ?_, ?_⟩
  · rw [SeqIteratorVisitor.new, seqIter_drive_ok recordElt len l true [],
      foldElts_record]
    simp
  · have h := tuple_drive_ok (ε := Unit) recordElt l l.length 0 true [] (by omega)
    rw [TupleVisitor.new] at *
    rw [h, foldElts_record]
    simp
  · rw [MapIteratorVisitor.new, mapIter_drive_ok recordPair lenM ps true [],
      foldPairs_record]
    simp
  · cases l with
    | nil => simp [flagList]
    | cons v rest =>
      simp [flagList, flagList_map_fst_false rest]
  · cases ps with
    | nil => simp [flagPairs]
    | cons p rest =>
      obtain ⟨k, w⟩ := p
      simp [flagPairs, flagPairs_map_fst_false rest]

/-- C3: every built-in composite binding creates its adapter with a
present length hint equal to the source's element count (conjuncts 1-5:
the creation sites in the slice/Vec/set, tuple, and BTreeMap/HashMap
impls), the adapter reports exactly that hint (conjuncts 6-8), and
driven to exhaustion it produces exactly that many continuing steps
(conjuncts 9-11). -/
theorem C3_length_hint_exact {σ ε : Type} (S : Serializer σ ε)
    (l : List Value) (ps : List (Value × Value)) (s : σ) :
    Value.serialize S (.slice l) s
      = S.visit_seq s (.iter (SeqIteratorVisitor.new l (some l.length)))
    ∧ Value.serialize S (.vec l) s
      = S.visit_seq s (.iter (SeqIteratorVisitor.new l (some l.length)))
    ∧ Value.serialize S (.btreeSet l) s
      = S.visit_seq s (.iter (SeqIteratorVisitor.new l (some l.length)))
    ∧ Value.serialize S (.hashSet l) s
      = S.visit_seq s (.iter (SeqIteratorVisitor.new l (some l.length)))
    ∧ Value.serialize S (.tuple l) s = S.visit_seq s (.tup (TupleVisitor.new l))
    ∧ Value.serialize S (.map ps) s
      = S.visit_map s (MapIteratorVisitor.new ps (some ps.length))
    ∧ Value.serialize S (.hashMap ps) s
      = S.visit_map s (MapIteratorVisitor.new ps (some ps.length))
    ∧ (SeqIteratorVisitor.new l (some l.length)).length = some l.length
    ∧ (TupleVisitor.new l).length = some l.length
    ∧ (MapIteratorVisitor.new ps (some ps.length)).length = some ps.length
    ∧ (SeqIteratorVisitor.drive (okSink (ε := Unit) recordElt) (l.length + 1)
        (SeqIteratorVisitor.new l (some l.length)) []).map (fun r => r.1)
      = .ok (List.replicate l.length (some ()) ++ [none])
    ∧ (TupleVisitor.drive (okSink (ε := Unit) recordElt) (l.length + 1)
        (TupleVisitor.new l) []).map (fun r => r.1)
      = .ok (List.replicate l.length (some ()) ++ [none])
    ∧ (MapIteratorVisitor.drive (okSinkKV (ε := Unit) recordPair)
        (ps.length + 1) (MapIteratorVisitor.new ps (some ps.length)) []).map
          (fun r => r.1)
      = .ok (List.replicate ps.length (some ()) ++ [none]) := by
  refine ⟨rfl, rfl, rfl, rfl, rfl, rfl, rfl, rfl, rfl, rfl, ?_, ?_, ?_⟩
  · rw [SeqIteratorVisitor.new, seqIter_drive_ok recordElt (some l.length) l true []]
    rfl
  · have h := tuple_drive_ok (ε := Unit) recordElt l l.length 0 true [] (by omega)
    rw [TupleVisitor.new] at *
    rw [h]
    rfl
  · rw [MapIteratorVisitor.new,
      mapIter_drive_ok recordPair (some ps.length) ps true []]
    rfl

/-- C4: an N-element tuple (N in 1..12, the generated arities) describes
itself as one seq-begin carrying hint N, then its N elements in
left-to-right positional order — each preceded by a `seqElt` marker
whose flag is true exactly on element 0 (`traceSeqElts l true`) — then
seq-end; in particular `("Alice", 30)` (a `&str` and an `i32`) yields
seq-begin(2), elt(first=true) "Alice", elt(first=false) integer 30,
seq-end. -/
theorem C4_tuple_fidelity :
    (∀ (l : List Value) (tr : List Event), 1 ≤ l.length → l.length ≤ 12 →
      Value.serialize traceS (.tuple l) tr
      = .ok (tr ++ .seqBegin (some l.length) ::
          (traceSeqElts l true ++ [.seqEnd])))
    ∧ Value.serialize traceS (.tuple [.str "Alice", .i32 30]) []
      = .ok [.seqBegin (some 2), .seqElt true, .str "Alice",
             .seqElt false, .i32 30, .seqEnd] := by
  constructor
  · intro l tr h1 h2
    rw [serialize_traceS (.tuple l) tr]
    rfl
  · rw [serialize_traceS]
    rfl

/-- C4 witness: the general clause applied to the 1-tuple `((),)`. -/
theorem C4_tuple_fidelity_witness :
    Value.serialize traceS (.tuple [.unit]) []
    = .ok [.seqBegin (some 1), .seqElt true, .unit, .seqEnd] := by
  have h := C4_tuple_fidelity.1 [.unit] [] (by decide) (by decide)
  simpa using h

/-- C5: the ownership-wrapper impls (`&T`, `&mut T`, `Box`, `Rc`,
`Arc`) delegate verbatim: against every sink and every starting state
they produce exactly the wrapped value's serialization, adding no
events of their own. -/
theorem C5_wrapper_transparency {σ ε : Type} (S : Serializer σ ε)
    (v : Value) (s : σ) :
    Value.serialize S (.ref v) s = Value.serialize S v s
    ∧ Value.serialize S (.mutRef v) s = Value.serialize S v s
    ∧ Value.serialize S (.box v) s = Value.serialize S v s
    ∧ Value.serialize S (.rc v) s = Value.serialize S v s
    ∧ Value.serialize S (.arc v) s = Value.serialize S v s :=
  ⟨rfl, rfl, rfl, rfl, rfl⟩

/-- C6: each narrow-width default visit equals the canonical 64-bit
visit at the widening conversion of its argument — the conversion is
value-preserving on each width's range for the integer widths (the
`signedWrap`/`unsignedWrap` reinterpretation is the identity there),
and the abstract std cast for `f32` — and each named/enum default visit
equals the unqualified visit with the name (and variant) dropped. -/
theorem C6_default_forwarding {σ ε : Type} (S : Serializer σ ε) (s : σ) :
    (∀ v : Int, -(2 ^ 63) ≤ v → v < 2 ^ 63 →
      S.visit_isize_default s v = S.visit_i64 s v)
    ∧ (∀ v : Int, -(2 ^ 7) ≤ v → v < 2 ^ 7 →
      S.visit_i8_default s v = S.visit_i64 s v)
    ∧ (∀ v : Int, -(2 ^ 15) ≤ v → v < 2 ^ 15 →
      S.visit_i16_default s v = S.visit_i64 s v)
    ∧ (∀ v : Int, -(2 ^ 31) ≤ v → v < 2 ^ 31 →
      S.visit_i32_default s v = S.visit_i64 s v)
    ∧ (∀ v : Nat, v < 2 ^ 64 → S.visit_usize_default s v = S.visit_u64 s v)
    ∧ (∀ v : Nat, v < 2 ^ 8 → S.visit_u8_default s v = S.visit_u64 s v)
    ∧ (∀ v : Nat, v < 2 ^ 16 → S.visit_u16_default s v = S.visit_u64 s v)
    ∧ (∀ v : Nat, v < 2 ^ 32 → S.visit_u32_default s v = S.visit_u64 s v)
    ∧ (∀ (asF64 : Nat → Nat) (v : Nat),
      Serializer.visit_f32_default asF64 S s v = S.visit_f64 s (asF64 v))
    ∧ (∀ name, S.visit_named_unit_default s name = S.visit_unit s)
    ∧ (∀ name variant,
      S.visit_enum_unit_default s name variant = S.visit_unit s)
    ∧ (∀ name vis, S.visit_named_seq_default s name vis = S.visit_seq s vis)
    ∧ (∀ name variant vis,
      S.visit_enum_seq_default s name variant vis = S.visit_seq s vis)
    ∧ (∀ name vis, S.visit_named_map_default s name vis = S.visit_map s vis)
    ∧ (∀ name variant vis,
      S.visit_enum_map_default s name variant vis = S.visit_map s vis) := by
  refine ⟨?_, ?_, ?_, ?_, ?_, ?_, ?_, ?_,
    fun asF64 v => rfl, fun name => rfl, fun name variant => rfl,
    fun name vis => rfl, fun name variant vis => rfl,
    fun name vis => rfl, fun name variant vis => rfl⟩
  · intro v h1 h2
    unfold Serializer.visit_isize_default
    rw [show signedWrap 64 v = v from by unfold signedWrap; omega]
  · intro v h1 h2
    unfold Serializer.visit_i8_default
    rw [show signedWrap 8 v = v from by unfold signedWrap; omega]
  · intro v h1 h2
    unfold Serializer.visit_i16_default
    rw [show signedWrap 16 v = v from by unfold signedWrap; omega]
  · intro v h1 h2
    unfold Serializer.visit_i32_default
    rw [show signedWrap 32 v = v from by unfold signedWrap; omega]
  · intro v h
    unfold Serializer.visit_usize_default
    rw [show unsignedWrap 64 v = v from by unfold unsignedWrap; omega]
  · intro v h
    unfold Serializer.visit_u8_default
    rw [show unsignedWrap 8 v = v from by unfold unsignedWrap; omega]
  · intro v h
    unfold Serializer.visit_u16_default
    rw [show unsignedWrap 16 v = v from by unfold unsignedWrap; omega]
  · intro v h
    unfold Serializer.visit_u32_default
    rw [show unsignedWrap 32 v = v from by unfold unsignedWrap; omega]

/-- C6 witness: the i8 and u16 clauses at concrete in-range values
against the trace sink. -/
theorem C6_default_forwarding_witness :
    traceS.visit_i8_default [] (-5) = traceS.visit_i64 [] (-5)
    ∧ traceS.visit_u16_default [] 4660 = traceS.visit_u64 [] 4660 :=
  ⟨(C6_default_forwarding traceS []).2.1 (-5) (by decide) (by decide),
   (C6_default_forwarding traceS []).2.2.2.2.2.2.1 4660 (by decide)⟩

/-- C7: each default-forwarding method fails iff the one canonical
method it forwards to fails on that forwarded call, with the same
error: the narrow widths forward to the 64-bit visits at the cast
value, `visit_char` to `visit_str` at the one-codepoint string (its
panic-free reduction is `visit_char_default_eq`), and the named/enum
variants to the unqualified visits. -/
theorem C7_default_error_iff {σ ε : Type} (S : Serializer σ ε) (s : σ)
    (e : ε) :
    (∀ v : Int, S.visit_isize_default s v = .error e
      ↔ S.visit_i64 s (signedWrap 64 v) = .error e)
    ∧ (∀ v : Int, S.visit_i8_default s v = .error e
      ↔ S.visit_i64 s (signedWrap 8 v) = .error e)
    ∧ (∀ v : Int, S.visit_i16_default s v = .error e
      ↔ S.visit_i64 s (signedWrap 16 v) = .error e)
    ∧ (∀ v : Int, S.visit_i32_default s v = .error e
      ↔ S.visit_i64 s (signedWrap 32 v) = .error e)
    ∧ (∀ v : Nat, S.visit_usize_default s v = .error e
      ↔ S.visit_u64 s (unsignedWrap 64 v) = .error e)
    ∧ (∀ v : Nat, S.visit_u8_default s v = .error e
      ↔ S.visit_u64 s (unsignedWrap 8 v) = .error e)
    ∧ (∀ v : Nat, S.visit_u16_default s v = .error e
      ↔ S.visit_u64 s (unsignedWrap 16 v) = .error e)
    ∧ (∀ v : Nat, S.visit_u32_default s v = .error e
      ↔ S.visit_u64 s (unsignedWrap 32 v) = .error e)
    ∧ (∀ (asF64 : Nat → Nat) (v : Nat),
      Serializer.visit_f32_default asF64 S s v = .error e
      ↔ S.visit_f64 s (asF64 v) = .error e)
    ∧ (∀ c : Char, S.visit_char_default s c = some (.error e)
      ↔ S.visit_str s ⟨[c]⟩ = .error e)
    ∧ (∀ name, S.visit_named_unit_default s name = .error e
      ↔ S.visit_unit s = .error e)
    ∧ (∀ name variant, S.visit_enum_unit_default s name variant = .error e
      ↔ S.visit_unit s = .error e)
    ∧ (∀ name vis, S.visit_named_seq_default s name vis = .error e
      ↔ S.visit_seq s vis = .error e)
    ∧ (∀ name variant vis,
      S.visit_enum_seq_default s name variant vis = .error e
      ↔ S.visit_seq s vis = .error e)
    ∧ (∀ name vis, S.visit_named_map_default s name vis = .error e
      ↔ S.visit_map s vis = .error e)
    ∧ (∀ name variant vis,
      S.visit_enum_map_default s name variant vis = .error e
      ↔ S.visit_map s vis = .error e) := by
  refine ⟨fun v => Iff.rfl, fun v => Iff.rfl, fun v => Iff.rfl,
    fun v => Iff.rfl, fun v => Iff.rfl, fun v => Iff.rfl, fun v => Iff.rfl,
    fun v => Iff.rfl, fun asF64 v => Iff.rfl, ?_,
    fun name => Iff.rfl, fun name variant => Iff.rfl,
    fun name vis => Iff.rfl, fun name variant vis => Iff.rfl,
    fun name vis => Iff.rfl, fun name variant vis => Iff.rfl⟩
  intro c
  rw [visit_char_default_eq S s c]
  simp

/-- C8 counterexample: the one-byte path `[0xFF]` is not valid UTF-8,
so `to_str` is `None` and the `unwrap` in the `Path`/`PathBuf` impls
panics: describing this path value produces no string event (no event
sequence at all), refuting the claim as stated for every path value. -/
theorem C8_path_counterexample :
    pathToStr [255] = none ∧ pathSerialize traceS [255] [] = none :=
  ⟨rfl, rfl⟩

/-- C8 amended: for every path value whose byte content is valid UTF-8
(i.e. that has a textual form, `to_str = Some`), describing it produces
exactly the event sequence of describing that string — a single string
event carrying the textual form. -/
theorem C8_path_string_form {σ ε : Type} (S : Serializer σ ε)
    (bytes : List Nat) (str : String) (s : σ)
    (h : pathToStr bytes = some str) :
    pathSerialize S bytes s = some (Value.serialize S (.str str) s) := by
  unfold pathSerialize
  rw [h]
  rfl

/-- C8 witness: the path with bytes "hi". -/
theorem C8_path_string_form_witness :
    pathSerialize traceS [104, 105] []
    = some (Value.serialize traceS (.str "hi") []) :=
  C8_path_string_form traceS [104, 105] "hi" [] (by decide)

/-- C9: a fixed-arity tuple visitor whose counter has reached the arity
(as after the N visits of one pass) stays exhausted: any further visit
call returns the exhausted result no matter what the sink does (the
result does not depend on `elt`, and the sink state `s` is returned
untouched — no sink method runs), and leaves the position counter
unchanged; driving it any `k` more times yields only exhausted results
and never another element event. -/
theorem C9_tuple_stably_exhausted {σ ε V : Type} (tv : TupleVisitor V)
    (elt : σ → Bool → V → Except ε σ) (s : σ) (k : Nat)
    (h : tv.elts.length ≤ tv.state) :
    TupleVisitor.visit tv elt s = .ok (none, { tv with first := false }, s)
    ∧ TupleVisitor.drive elt k tv s
      = .ok (List.replicate k none,
             if k = 0 then tv else { tv with first := false }, s) := by
  constructor
  · rw [TupleVisitor.visit, List.getElem?_eq_none h]
  · exact tuple_drive_exhausted elt k tv s h

/-- C9 witness: an exhausted arity-1 visitor driven against a sink that
always fails still reports exhausted with the counter unchanged. -/
theorem C9_tuple_stably_exhausted_witness :
    TupleVisitor.visit (V := Nat) ⟨[7], 1, true⟩
        (fun (_ : Unit) _ _ => Except.error 3) ()
      = .ok (none, ⟨[7], 1, false⟩, ())
    ∧ TupleVisitor.drive (fun (_ : Unit) _ _ => Except.error 3) 2
        ⟨[7], 1, true⟩ ()
      = .ok ([none, none], ⟨[7], 1, false⟩, ()) := by
  have h := C9_tuple_stably_exhausted (V := Nat) ⟨[7], 1, true⟩
    (fun _ _ _ => Except.error 3) () 2 (by decide)
  simpa using h

/-- C10: the default `visit_char` is total: every Unicode scalar value
encodes into at most 4 bytes (the stack buffer always suffices, so the
first unwrap cannot panic), the produced bytes decode as valid UTF-8
back to exactly that code point (so the second unwrap cannot panic),
and the method reduces to exactly one `visit_str` carrying the
character's one-codepoint string. -/
theorem C10_visit_char_total {σ ε : Type} (S : Serializer σ ε) (s : σ)
    (c : Char) :
    (encodeUtf8 c.toNat).length ≤ 4
    ∧ decodeUtf8 (encodeUtf8 c.toNat) = some [c.toNat]
    ∧ S.visit_char_default s c = some (S.visit_str s ⟨[c]⟩) :=
  ⟨encodeUtf8_length_le c.toNat, decode_encode c.toNat c.valid,
   visit_char_default_eq S s c⟩
